import Mathlib

/-!
# Akashlytics Deploy: manifest validation, deployment creation, debounce, address formatting

A shallow embedding of
* `src/shared/components/Address.js` (the `formattedAddress` expression), and
* `src/routes/CreateDeploymentWizard/ManifestEdit.js`
  (`validateDeploymentData`, `createAndValidateDeploymentData`, `handleCreateClick`
  and the debouncing `useEffect`).

JavaScript strings are sequences of UTF-16 code units, so they are embedded as lists of
code units. The parsed manifest is a dynamically typed value (`JsVal`), and reading a
property or calling a method on a value that does not have it raises a `TypeError`, as
in the engine. Component state (`useState`) is passed explicitly; collaborators that
are not part of the component (`yaml.load`, `NewDeploymentData`, `sendTransaction`,
...) are fields of an environment record and may return or throw.
-/

namespace Akashlytics

/-! ## JavaScript strings -/

/-- A JavaScript string: its sequence of UTF-16 code units. -/
abbrev JsString := List Nat

/-- UTF-16 code units of one Unicode scalar value. -/
def utf16 (c : Char) : List Nat :=
  if c.toNat < 65536 then [c.toNat]
  else [55296 + (c.toNat - 65536) / 1024, 56320 + (c.toNat - 65536) % 1024]

/-- The JavaScript string denoted by a literal. -/
def js (s : String) : JsString :=
  s.toList.foldr (fun c acc => utf16 c ++ acc) []

/-- Clamping of a relative index as done by `String.prototype.slice`:
negative indices count from the end, everything is clamped to `[0, len]`. -/
def relIndex (len : Nat) (i : Int) : Nat :=
  if i < 0 then ((len : Int) + i).toNat else min i.toNat len

/-- The call `s.slice(start, stop)`; `stop = none` stands for an omitted second argument. -/
def slice (s : JsString) (start : Int) (stop : Option Int) : JsString :=
  let len := s.length
  let lo := relIndex len start
  let hi := match stop with
    | none => len
    | some e => relIndex len e
  (s.drop lo).take (hi - lo)

/-- The call `parts.join("")`: `undefined` and `null` elements contribute the empty string. -/
def join (parts : List (Option JsString)) : JsString :=
  parts.foldr (fun p acc => p.getD [] ++ acc) []

/-- The call `s.includes(v)` on strings: `v` occurs in `s` as a contiguous run of code units. -/
def strIncludes : JsString → JsString → Bool
  | [], v => v.isPrefixOf []
  | c :: cs, v => v.isPrefixOf (c :: cs) || strIncludes cs v

/-! ## `Address.js` -/

/-- The `formattedAddress` constant of the `Address` component
(`[address?.slice(0, 10), ".....", address?.slice(address?.length - 10)].join("")`);
`none` is an absent (`undefined`/`null`) address, for which both optional calls
short-circuit to `undefined`. -/
def formattedAddress (address : Option JsString) : JsString :=
  join [address.map (fun a => slice a 0 (some 10)),
        some (js "....."),
        address.map (fun a => slice a ((a.length : Int) - 10) none)]

/-! ## JavaScript values and errors -/

/-- A JavaScript value as `yaml.load` can return it: `undefined`, `null`, a boolean, a
number, a string, an array, or an object given by its own properties in `Object.keys`
order (keys are distinct). Numbers are kept as integers: the code below only asks
whether a value is a number, never which one. -/
inductive JsVal where
  | undefined
  | null
  | bool (b : Bool)
  | num (n : Int)
  | str (s : JsString)
  | arr (items : List JsVal)
  | obj (props : List (JsString × JsVal))

/-- A value that reaches a `catch` clause. `nullish` is `null` or `undefined`;
`typeError` is a `TypeError` raised by the engine (its `name` is `"TypeError"`, its
message an engine-specific string); every other value is described by what reading its
`name` and `message` properties gives (`undefined` for a property it does not have). -/
inductive JsThrown where
  | nullish
  | typeError
  | value (name : JsVal) (message : JsVal)

/-- Whether a value is `null` or `undefined`. -/
def JsVal.isNullish : JsVal → Bool
  | .undefined => true
  | .null => true
  | _ => false

/-- Truthiness of a value, as tested by `&&` and `if`. -/
def JsVal.truthy : JsVal → Bool
  | .undefined => false
  | .null => false
  | .bool b => b
  | .num n => n != 0
  | .str s => !s.isEmpty
  | .arr _ => true
  | .obj _ => true

/-- The comparison `x === "literal"`: `x` is a string with the same code units. -/
def JsVal.isStr (x : JsVal) (s : JsString) : Bool :=
  match x with
  | .str t => t == s
  | _ => false

/-- The value stored under `key` in a property list, `undefined` when there is none. -/
def lookup (key : JsString) : List (JsString × JsVal) → JsVal
  | [] => .undefined
  | (k, x) :: rest => if k = key then x else lookup key rest

/-- Reading `x.key` on a value that is not `null`/`undefined`, for the keys read in
`ManifestEdit.js` (`sdl`, `services`, `expose`, `env`, `accept`): an object gives its
own property, every other value gives `undefined`. -/
def JsVal.get (x : JsVal) (key : JsString) : JsVal :=
  match x with
  | .obj props => lookup key props
  | _ => .undefined

/-- Reading `x.key`: a `TypeError` when `x` is `null` or `undefined`. -/
def getProp (x : JsVal) (key : JsString) : Except JsThrown JsVal :=
  if x.isNullish then .error .typeError else .ok (x.get key)

/-- The values `x[k]` for `k` in `Object.keys(x)`, in that order. `Object.keys` raises
a `TypeError` on `null`/`undefined`; an array lists its elements, a string its code
units, a number or boolean has no keys. -/
def keyedValues : JsVal → Except JsThrown (List JsVal)
  | .undefined => .error .typeError
  | .null => .error .typeError
  | .bool _ => .ok []
  | .num _ => .ok []
  | .str s => .ok (s.map (fun c => JsVal.str [c]))
  | .arr items => .ok items
  | .obj props => .ok ((props.map (fun p => p.1)).map (fun k => lookup k props))

/-- The call `x.includes(v)` on a value that is not `null`/`undefined`: substring
search on a string, element search on an array, and a `TypeError` on anything else
(`x.includes` is not a function). -/
def includes (x : JsVal) (v : JsString) : Except JsThrown Bool :=
  match x with
  | .str s => .ok (strIncludes s v)
  | .arr items => .ok (items.any (fun i => i.isStr v))
  | _ => .error .typeError

/-- The optional call `x?.includes(v)`: `undefined` (falsy) when `x` is
`null`/`undefined`. The result is given by its truthiness. -/
def optIncludes (x : JsVal) (v : JsString) : Except JsThrown Bool :=
  if x.isNullish then .ok false else includes x v

/-- The method `Array.prototype.some` with a callback that may throw: elements are
visited in order until the callback returns a truthy value or throws. -/
def arraySome (f : JsVal → Except JsThrown Bool) : List JsVal → Except JsThrown Bool
  | [] => .ok false
  | x :: rest =>
    match f x with
    | .error err => .error err
    | .ok true => .ok true
    | .ok false => arraySome f rest

/-- The optional call `x?.some(f)`: `undefined` (falsy) when `x` is `null`/`undefined`,
`Array.prototype.some` on an array, a `TypeError` on anything else (`x.some` is not a
function). -/
def optSome (x : JsVal) (f : JsVal → Except JsThrown Bool) : Except JsThrown Bool :=
  match x with
  | .undefined => .ok false
  | .null => .ok false
  | .arr items => arraySome f items
  | _ => .error .typeError

/-! ## Data model of `ManifestEdit.js` -/

/-- The `deploymentId` of a deployment-data value. -/
structure DeploymentId where
  dseq : JsString

/-- The fields of the value returned by `NewDeploymentData` that `ManifestEdit.js`
reads; `sdl` is whatever document the builder stored. -/
structure DeploymentData where
  sdl : JsVal
  deploymentId : DeploymentId
  version : JsString

/-- One entry of a template's `valuesToChange`. -/
structure ValueToChange where
  field : JsString
  initialValue : JsString
  deriving DecidableEq, Repr

/-- The selected template; `valuesToChange` may be absent. -/
structure Template where
  valuesToChange : Option (List ValueToChange)
  deriving DecidableEq, Repr

/-- What `createAndValidateDeploymentData` returns: a deployment data value, `null`
(the early `return null`) or `undefined` (falling off the end after `catch`). -/
inductive JsResult where
  | data (dd : DeploymentData)
  | null
  | undefined

/-- Calls to collaborators, recorded in program order. -/
inductive Call where
  | yamlLoad (text : Option JsString)
  | NewDeploymentData (doc : JsVal) (dseq : Option JsString) (deposit : Nat)
  | validateDeploymentData (dd : DeploymentData)
  | consoleError (err : JsThrown)
  | getCreateDeploymentMsg (dd : DeploymentData)
  | sendTransaction
  | saveDeploymentManifestAndName (dseq : JsString)
  | historyPush (dseq : JsString)
  | analyticsEvent

/-- The component state that the functions below read or write (`useState` cells),
together with the record of collaborator calls. `parsingError` starts as `null` and
holds whatever was last passed to `setParsingError`. -/
structure State where
  parsingError : JsVal
  isCreatingDeployment : Bool
  calls : List Call

/-- Everything the component closes over that is not its own state: props, context
values and the imported collaborators. A collaborator either returns or throws. -/
structure Env where
  editedManifest : Option JsString
  selectedTemplate : Template
  apiEndpoint : JsString
  address : JsString
  defaultInitialDeposit : Nat
  load : Option JsString → Except JsThrown JsVal
  NewDeploymentData : JsString → JsVal → Option JsString → JsString → Nat →
    Except JsThrown DeploymentData
  getCreateDeploymentMsg : DeploymentData → Except JsThrown Nat
  sendTransaction : List Nat → Except JsThrown Bool
  saveDeploymentManifestAndName : JsString → Option JsString → JsString → JsString →
    Except JsThrown Unit
  historyPush : JsString → Except JsThrown Unit
  analyticsEvent : Except JsThrown Unit

/-- Truthiness of a string-or-absent value: `undefined`, `null` and `""` are falsy. -/
def truthy : Option JsString → Bool
  | none => false
  | some s => !s.isEmpty

/-- Whether the alert `{parsingError && <Alert ...>}` is rendered. -/
def alertVisible (s : State) : Bool :=
  s.parsingError.truthy

/-! ## `validateDeploymentData` -/

/-- The callback `(e) => e.accept?.includes(v)` of the `expose` scan. -/
def exposureAccepts (v : JsString) (e : JsVal) : Except JsThrown Bool :=
  match getProp e (js "accept") with
  | .error err => .error err
  | .ok accept => optIncludes accept v

/-- The callback `(e) => e?.includes(v)` of the `env` scan. -/
def envEntryIncludes (v : JsString) (e : JsVal) : Except JsThrown Bool :=
  optIncludes e v

/-- The condition of the inner `if`, for the service value `svc`:
`svc.expose?.some((e) => e.accept?.includes(v)) || svc.env?.some((e) => e?.includes(v))`.
The right operand of `||` is evaluated only when the left one is falsy. -/
def serviceHasValue (svc : JsVal) (v : JsString) : Except JsThrown Bool :=
  match getProp svc (js "expose") with
  | .error err => .error err
  | .ok expose =>
    match optSome expose (exposureAccepts v) with
    | .error err => .error err
    | .ok true => .ok true
    | .ok false =>
      match getProp svc (js "env") with
      | .error err => .error err
      | .ok env => optSome env (envEntryIncludes v)

/-- The template literal `Template value of "${initialValue}" needs to be changed`. -/
def templateMessage (initialValue : JsString) : JsString :=
  js "Template value of \"" ++ initialValue ++ js "\" needs to be changed"

/-- The error built and thrown for a template value that is still present:
`new Error(message)` with its `name` set to `"TemplateValidation"`. -/
def templateValidationError (initialValue : JsString) : JsThrown :=
  .value (.str (js "TemplateValidation")) (.str (templateMessage initialValue))

/-- The service values `deploymentData.sdl.services[serviceName]` for `serviceName` in
`Object.keys(deploymentData.sdl.services)`. -/
def servicesOf (deploymentData : DeploymentData) : Except JsThrown (List JsVal) :=
  match getProp deploymentData.sdl (js "services") with
  | .error err => .error err
  | .ok services => keyedValues services

/-- The inner loop `for (const serviceName of serviceNames)`, over the service values. -/
def checkServices (v : JsString) : List JsVal → Except JsThrown Unit
  | [] => .ok ()
  | svc :: rest =>
    match serviceHasValue svc v with
    | .error err => .error err
    | .ok true => .error (templateValidationError v)
    | .ok false => checkServices v rest

/-- The outer loop `for (const valueToChange of selectedTemplate.valuesToChange)`. -/
def checkValues (deploymentData : DeploymentData) :
    List ValueToChange → Except JsThrown Unit
  | [] => .ok ()
  | valueToChange :: rest =>
    if valueToChange.field = js "accept" ∨ valueToChange.field = js "env" then
      match servicesOf deploymentData with
      | .error err => .error err
      | .ok services =>
        match checkServices valueToChange.initialValue services with
        | .error err => .error err
        | .ok () => checkValues deploymentData rest
    else checkValues deploymentData rest

/-- The function `validateDeploymentData(deploymentData)`: returns normally or throws. -/
def validateDeploymentData (selectedTemplate : Template) (deploymentData : DeploymentData) :
    Except JsThrown Unit :=
  match selectedTemplate.valuesToChange with
  | none => .ok ()
  | some valuesToChange => checkValues deploymentData valuesToChange

/-! ## `createAndValidateDeploymentData` -/

/-- Record a collaborator call. -/
def State.call (s : State) (c : Call) : State :=
  { s with calls := s.calls ++ [c] }

/-- The state setter `setParsingError(v)`. -/
def State.setParsingError (s : State) (v : JsVal) : State :=
  { s with parsingError := v }

/-- The state setter `setIsCreatingDeployment(b)`. -/
def State.setIsCreatingDeployment (s : State) (b : Bool) : State :=
  { s with isCreatingDeployment := b }

/-- The branches of the `catch` clause once `err.name` has been read as `name` and
`err.message` would read as `message`. -/
def reportError (err : JsThrown) (name message : JsVal) (s : State) :
    State × Except JsThrown JsResult :=
  if name.isStr (js "YAMLException") || name.isStr (js "CustomValidationError") then
    (s.setParsingError message, .ok .undefined)
  else if name.isStr (js "TemplateValidation") then
    (s.setParsingError message, .ok .undefined)
  else
    ((s.setParsingError (.str (js "Error while parsing SDL file"))).call
      (.consoleError err), .ok .undefined)

/-- The `catch (err)` clause of `createAndValidateDeploymentData`. Reading `err.name`
of `null`/`undefined` raises a `TypeError` inside the handler, which leaves the
function; otherwise the handler completes and the function returns `undefined`. The
message of an engine `TypeError` is never read, since its name selects the last
branch. -/
def catchClause (err : JsThrown) (s : State) : State × Except JsThrown JsResult :=
  match err with
  | .nullish => (s, .error .typeError)
  | .typeError => reportError err (.str (js "TypeError")) .undefined s
  | .value name message => reportError err name message s

/-- The function `createAndValidateDeploymentData(yamlStr, dseq, deposit)`;
`deposit = none` is an omitted argument, which takes the default
`defaultInitialDeposit`. The guard reads the prop `editedManifest`, not the parameter
`yamlStr`. The result is the final state together with the returned value, or the
value the promise rejects with. -/
def createAndValidateDeploymentData (env : Env) (yamlStr : Option JsString)
    (dseq : Option JsString) (deposit : Option Nat) (s : State) :
    State × Except JsThrown JsResult :=
  if truthy env.editedManifest then
    let s1 := s.call (.yamlLoad yamlStr)
    match env.load yamlStr with
    | .error err => catchClause err s1
    | .ok doc =>
      let s2 := s1.call (.NewDeploymentData doc dseq (deposit.getD env.defaultInitialDeposit))
      match env.NewDeploymentData env.apiEndpoint doc dseq env.address
          (deposit.getD env.defaultInitialDeposit) with
      | .error err => catchClause err s2
      | .ok dd =>
        let s3 := s2.call (.validateDeploymentData dd)
        match validateDeploymentData env.selectedTemplate dd with
        | .error err => catchClause err s3
        | .ok () => (s3.setParsingError .null, .ok (.data dd))
  else (s, .ok .null)

/-! ## `handleCreateClick` -/

/-- The body of the `if (response)` block: save, navigate, analytics event. -/
def afterResponse (env : Env) (dd : DeploymentData) (s : State) :
    State × Except JsThrown Unit :=
  let s1 := s.call (.saveDeploymentManifestAndName dd.deploymentId.dseq)
  match env.saveDeploymentManifestAndName dd.deploymentId.dseq env.editedManifest
      dd.version env.address with
  | .error err => (s1, .error err)
  | .ok () =>
    let s2 := s1.call (.historyPush dd.deploymentId.dseq)
    match env.historyPush dd.deploymentId.dseq with
    | .error err => (s2, .error err)
    | .ok () =>
      let s3 := s2.call .analyticsEvent
      match env.analyticsEvent with
      | .error err => (s3, .error err)
      | .ok () => (s3, .ok ())

/-- The `try` block of `handleCreateClick`. -/
def tryBlock (env : Env) (dd : DeploymentData) (s : State) :
    State × Except JsThrown Unit :=
  let s1 := s.call (.getCreateDeploymentMsg dd)
  match env.getCreateDeploymentMsg dd with
  | .error err => (s1, .error err)
  | .ok message =>
    let s2 := s1.call .sendTransaction
    match env.sendTransaction [message] with
    | .error err => (s2, .error err)
    | .ok response =>
      if response then afterResponse env dd s2 else (s2, .ok ())

/-- The function `handleCreateClick(deposit)`: the final state, and whether the promise
resolves (`.ok ()`) or rejects (`.error err`). A rejection of the awaited validation
leaves the function at once; `if (!dd) return;` is taken for `null` and `undefined`.
The `catch` clause rethrows, and the `finally` clause runs on both exits of the `try`
block. -/
def handleCreateClick (env : Env) (deposit : Option Nat) (s : State) :
    State × Except JsThrown Unit :=
  let s1 := s.setIsCreatingDeployment true
  match createAndValidateDeploymentData env env.editedManifest none deposit s1 with
  | (s2, .error err) => (s2, .error err)
  | (s2, .ok .null) => (s2, .ok ())
  | (s2, .ok .undefined) => (s2, .ok ())
  | (s2, .ok (.data dd)) =>
    match tryBlock env dd s2 with
    | (s3, .error err) => (s3.setIsCreatingDeployment false, .error err)
    | (s3, .ok ()) => (s3.setIsCreatingDeployment false, .ok ())

/-! ## Shapes of the data model

The specification's data model gives a service an optional `expose` list of exposures,
each with an optional `accept` list, and an optional `env` list of strings. The
predicates below say when a value has that shape and, for such a value, whether it
holds a given string. They are used to state results. -/

/-- An exposure of the data model: not `null`/`undefined`, its `accept` absent, `null`
or an array. -/
def wellShapedExposure (e : JsVal) : Bool :=
  !e.isNullish &&
    (match e.get (js "accept") with
      | .undefined => true
      | .null => true
      | .arr _ => true
      | _ => false)

/-- An `env` entry of the data model: a string, or `null`/`undefined`. -/
def wellShapedEnvEntry (e : JsVal) : Bool :=
  match e with
  | .undefined => true
  | .null => true
  | .str _ => true
  | _ => false

/-- A service of the data model: not `null`/`undefined`, its `expose` absent, `null`
or an array of well-shaped exposures, its `env` absent, `null` or an array of
well-shaped entries. Other properties are free. -/
def wellShapedService (svc : JsVal) : Bool :=
  !svc.isNullish &&
    (match svc.get (js "expose") with
      | .undefined => true
      | .null => true
      | .arr es => es.all wellShapedExposure
      | _ => false) &&
    (match svc.get (js "env") with
      | .undefined => true
      | .null => true
      | .arr es => es.all wellShapedEnvEntry
      | _ => false)

/-- Whether the `accept` list of the exposure `e` has the string `v` as an element. -/
def acceptLists (v : JsString) (e : JsVal) : Bool :=
  match e.get (js "accept") with
  | .arr a => a.any (fun i => i.isStr v)
  | _ => false

/-- Whether the `env` entry `e` is a string in which `v` occurs. -/
def envEntryHolds (v : JsString) (e : JsVal) : Bool :=
  match e with
  | .str t => strIncludes t v
  | _ => false

/-- Whether the service holds `v`: some exposure lists it in `accept`, or it occurs in
some `env` entry. -/
def holdsValue (svc : JsVal) (v : JsString) : Bool :=
  (match svc.get (js "expose") with
    | .arr es => es.any (acceptLists v)
    | _ => false)
  ||
  (match svc.get (js "env") with
    | .arr es => es.any (envEntryHolds v)
    | _ => false)

/-- Whether the entry `e` of `valuesToChange` matches: its field is `"accept"` or
`"env"` and some service holds its `initialValue`. -/
def entryMatches (services : List JsVal) (e : ValueToChange) : Bool :=
  (decide (e.field = js "accept") || decide (e.field = js "env")) &&
    services.any (fun svc => holdsValue svc e.initialValue)

/-! ## The debouncing `useEffect`

The effect `useEffect(() => { const timeoutId = setTimeout(cb, 500); return cleanup },
[editedManifest])` is embedded together with the part of the runtime it talks to: the
table of active timers. Time is counted in milliseconds. When `editedManifest`
changes, React first runs the cleanup returned by the previous run of the effect and
then the effect itself. -/

/-- An active timer: its id, the time it is due, and the `editedManifest` captured by
the callback that was passed to `setTimeout`. -/
structure Timer where
  id : Nat
  fireAt : Nat
  text : Option JsString
  deriving DecidableEq, Repr

/-- State of the debounce: the clock, the next timer id the runtime hands out, the
active timers, the `timeoutId` captured by the cleanup of the last effect run (`none`
before the effect ever ran), and the arguments of the calls of
`createAndValidateDeploymentData` made by timer callbacks so far, oldest first. -/
structure Debounce where
  now : Nat
  nextId : Nat
  timers : List Timer
  timeoutId : Option Nat
  validated : List (Option JsString)
  deriving DecidableEq, Repr

/-- The call `setTimeout(callback, delay)`: registers a timer and returns its id. -/
def setTimeout (text : Option JsString) (delay : Nat) (d : Debounce) : Nat × Debounce :=
  (d.nextId,
    { d with nextId := d.nextId + 1,
             timers := d.timers ++ [{ id := d.nextId, fireAt := d.now + delay, text := text }] })

/-- The call `clearTimeout(id)`: removes the timer with that id, if it is still active. -/
def clearTimeout (id : Nat) (d : Debounce) : Debounce :=
  { d with timers := d.timers.filter (fun t => t.id != id) }

/-- Let `dt` milliseconds pass: every timer that has become due fires, which calls
`createAndValidateDeploymentData` with its captured text, and leaves the table. -/
def elapse (dt : Nat) (d : Debounce) : Debounce :=
  { d with now := d.now + dt,
           timers := d.timers.filter (fun t => !decide (t.fireAt ≤ d.now + dt)),
           validated := d.validated ++
             ((d.timers.filter (fun t => decide (t.fireAt ≤ d.now + dt))).map (fun t => t.text)) }

/-- The cleanup function `() => { if (timeoutId) { clearTimeout(timeoutId); } }`. -/
def cleanup (d : Debounce) : Debounce :=
  match d.timeoutId with
  | none => d
  | some id => if id ≠ 0 then clearTimeout id d else d

/-- The effect body: schedule the validation of the current text in 500 ms and
remember the timer id for the cleanup. -/
def effect (text : Option JsString) (d : Debounce) : Debounce :=
  let r := setTimeout text 500 d
  { r.2 with timeoutId := some r.1 }

/-- An edit arriving `dt` milliseconds after the previous event and changing
`editedManifest` to `text`: time passes, then cleanup, then the effect. -/
def edit (dt : Nat) (text : Option JsString) (d : Debounce) : Debounce :=
  effect text (cleanup (elapse dt d))

/-- A sequence of edits, each given with the delay since the previous event. -/
def editAll (edits : List (Nat × Option JsString)) (d : Debounce) : Debounce :=
  edits.foldl (fun acc e => edit e.1 e.2 acc) d

/-- Exactly one validation is pending: the only active timer is the one whose id the
current cleanup holds, it is due 500 ms after the current time and carries `text`;
`base` are the validations run so far. Used to state and prove the debounce results. -/
def PendingOne (d : Debounce) (text : Option JsString) (base : List (Option JsString)) : Prop :=
  ∃ id, id ≠ 0 ∧ id < d.nextId ∧ d.timeoutId = some id ∧
    d.timers = [{ id := id, fireAt := d.now + 500, text := text }] ∧ d.validated = base

/-! ## Example inputs -/

/-- Service with `image`, `expose: [{port: 80, accept: [host]}]` and, when given, `env`. -/
def webService (host : JsString) (env : Option (List JsVal)) : JsVal :=
  .obj ([(js "image", .str (js "nginx")),
         (js "expose", .arr [.obj [(js "port", .num 80), (js "accept", .arr [.str host])]])] ++
        (match env with
          | none => []
          | some entries => [(js "env", .arr entries)]))

/-- The document `{version: "2.0", services: {...}}`. -/
def sdlOf (services : List (JsString × JsVal)) : JsVal :=
  .obj [(js "version", .str (js "2.0")), (js "services", .obj services)]

/-- The document with services `a: {env: [8080]}` and
`web: {image, expose: [{port: 80, accept: ["example.com"]}]}`, in that order. -/
def numericEnvDoc : JsVal :=
  sdlOf [(js "a", .obj [(js "env", .arr [.num 8080])]),
         (js "web", webService (js "example.com") none)]

/-- The document with services `db:` (no content, so `null`) and
`web: {image, expose: [{port: 80, accept: ["example.com"]}]}`, in that order. -/
def nullServiceDoc : JsVal :=
  sdlOf [(js "db", .null), (js "web", webService (js "example.com") none)]

/-- The document with the single service
`web: {image, expose: [{port: 80, accept: ["myapp.com"]}], env: [true, "CHANGE_ME"]}`. -/
def booleanEnvDoc : JsVal :=
  sdlOf [(js "web", webService (js "myapp.com") (some [.bool true, .str (js "CHANGE_ME")]))]

/-- The document with the single service
`web: {image, expose: [{port: 80, accept: ["myapp.com"]}], env: [8080]}`. -/
def portEnvDoc : JsVal :=
  sdlOf [(js "web", webService (js "myapp.com") (some [.num 8080]))]

/-- The document with the single service
`web: {image, expose: [{port: 80, accept: ["example.com"]}], env: ["CHANGE_ME"]}`. -/
def unchangedDoc : JsVal :=
  sdlOf [(js "web", webService (js "example.com") (some [.str (js "CHANGE_ME")]))]

/-- Template with `valuesToChange = [{field: "accept", initialValue: "example.com"}]`. -/
def acceptTemplate : Template :=
  { valuesToChange := some [{ field := js "accept", initialValue := js "example.com" }] }

/-- Template with an `accept` entry followed by an `env` entry. -/
def acceptEnvTemplate : Template :=
  { valuesToChange := some [{ field := js "accept", initialValue := js "example.com" },
                            { field := js "env", initialValue := js "CHANGE_ME" }] }

/-- A deployment data value around a document. -/
def mkDeploymentData (doc : JsVal) (dseq : Option JsString) : DeploymentData :=
  { sdl := doc, deploymentId := { dseq := dseq.getD (js "1") }, version := js "v1" }

/-- An environment whose parser accepts exactly `text`, yielding `doc`, and rejects
every other text with a `YAMLException`; the builder wraps the document; the
remaining collaborators succeed. -/
def exampleEnv (template : Template) (text : JsString) (doc : JsVal) : Env :=
  { editedManifest := some text
    selectedTemplate := template
    apiEndpoint := js "http://localhost:1317"
    address := js "akash1abcdefghijklmnopqrstuvwxyz"
    defaultInitialDeposit := 5000000
    load := fun t =>
      if t = some text then .ok doc
      else .error (.value (.str (js "YAMLException")) (.str (js "bad indentation")))
    NewDeploymentData := fun _ d dseq _ _ => .ok (mkDeploymentData d dseq)
    getCreateDeploymentMsg := fun _ => .ok 0
    sendTransaction := fun _ => .ok true
    saveDeploymentManifestAndName := fun _ _ _ _ => .ok ()
    historyPush := fun _ => .ok ()
    analyticsEvent := .ok () }

/-- An environment whose parser rejects the edited text `"services: ["`. -/
def unparsableEnv : Env :=
  { exampleEnv acceptTemplate (js "services: {}") (sdlOf []) with
    editedManifest := some (js "services: [") }

/-- An environment whose builder fails with an `Error` named `"Error"` and carrying
the message `"Network Error"`. -/
def failingBuilderEnv : Env :=
  { exampleEnv acceptTemplate (js "services: {}") (sdlOf []) with
    NewDeploymentData := fun _ _ _ _ _ =>
      .error (.value (.str (js "Error")) (.str (js "Network Error"))) }

/-- An environment with an empty editor. -/
def emptyEditorEnv : Env :=
  { exampleEnv acceptTemplate (js "services: {}") (sdlOf []) with
    editedManifest := some [] }

/-- The initial component state (`useState(null)`, `useState(false)`), no calls yet. -/
def initialState : State :=
  { parsingError := .null, isCreatingDeployment := false, calls := [] }

/-- A state in which an earlier validation left a parsing error. -/
def staleErrorState : State :=
  { parsingError := .str (js "bad indentation"), isCreatingDeployment := false, calls := [] }

/-- The initial debounce state: no timer yet; the runtime's timer ids start at 1. -/
def initialDebounce : Debounce :=
  { now := 0, nextId := 1, timers := [], timeoutId := none, validated := [] }

/-! ## Strings and `Address` -/

theorem strIncludes_of_prefix (v b : JsString) : strIncludes (v ++ b) v = true := by
  cases h : v ++ b with
  | nil =>
    have hv : v = [] := (List.append_eq_nil.mp h).1
    subst hv
    simp [strIncludes]
  | cons c cs =>
    have hp : v.isPrefixOf (c :: cs) = true := by
      rw [← h]
      exact List.isPrefixOf_iff_prefix.mpr (List.prefix_append v b)
    simp [strIncludes, hp]

theorem strIncludes_append (a v b : JsString) : strIncludes (a ++ (v ++ b)) v = true := by
  induction a with
  | nil => exact strIncludes_of_prefix v b
  | cons c cs ih =>
    show strIncludes (c :: (cs ++ (v ++ b))) v = true
    simp [strIncludes, ih]

theorem strIncludes_self (v : JsString) : strIncludes v v = true := by
  have h := strIncludes_of_prefix v []
  simpa using h

theorem slice_head (a : JsString) (h : 10 ≤ a.length) : slice a 0 (some 10) = a.take 10 := by
  simp [slice, relIndex, h]

theorem slice_tail (a : JsString) (h : 10 ≤ a.length) :
    slice a ((a.length : Int) - 10) none = a.drop (a.length - 10) := by
  have hlo : relIndex a.length ((a.length : Int) - 10) = a.length - 10 := by
    unfold relIndex
    have h1 : ¬ ((a.length : Int) - 10 < 0) := by omega
    rw [if_neg h1]
    omega
  unfold slice
  simp only [hlo]
  apply List.take_of_length_le
  simp

/-- C10: for an address of at least 10 code units, `formattedAddress` is its first 10
code units, then the five dots, then its last 10 code units, so it has length 25;
for an absent address it is just the five dots. -/
theorem formattedAddress_spec (address : JsString) (h : 10 ≤ address.length) :
    formattedAddress (some address) =
        address.take 10 ++ js "....." ++ address.drop (address.length - 10)
      ∧ (js ".....").length = 5
      ∧ (formattedAddress (some address)).length = 25
      ∧ formattedAddress none = js "....." := by
  have hform : formattedAddress (some address) =
      address.take 10 ++ js "....." ++ address.drop (address.length - 10) := by
    simp [formattedAddress, join, slice_head address h, slice_tail address h]
  have hdots : (js ".....").length = 5 := by decide
  refine ⟨hform, hdots, ?_, by decide⟩
  rw [hform]
  simp only [List.length_append, List.length_take, List.length_drop, hdots]
  omega

/-- Witness for C10 at a 32-character address. -/
theorem formattedAddress_spec_witness :
    10 ≤ (js "akash1abcdefghijklmnopqrstuvwxyz").length ∧
    formattedAddress (some (js "akash1abcdefghijklmnopqrstuvwxyz")) =
      js "akash1abcd.....qrstuvwxyz" :=
  ⟨by decide,
   (formattedAddress_spec (js "akash1abcdefghijklmnopqrstuvwxyz") (by decide)).1.trans
     (by decide)⟩

/-! ## `validateDeploymentData` -/

theorem arraySome_pure (f : JsVal → Except JsThrown Bool) (g : JsVal → Bool)
    (xs : List JsVal) (h : ∀ x ∈ xs, f x = .ok (g x)) :
    arraySome f xs = .ok (xs.any g) := by
  induction xs with
  | nil => rfl
  | cons x rest ih =>
    have hx := h x (List.mem_cons_self x rest)
    have hrest := ih (fun y hy => h y (List.mem_cons_of_mem x hy))
    cases hg : g x with
    | true => simp [arraySome, hx, hg]
    | false => simp [arraySome, hx, hg, hrest]

theorem exposureAccepts_wellShaped (v : JsString) (e : JsVal)
    (h : wellShapedExposure e = true) : exposureAccepts v e = .ok (acceptLists v e) := by
  unfold wellShapedExposure at h
  rw [Bool.and_eq_true] at h
  obtain ⟨hn, ha⟩ := h
  have hn' : e.isNullish = false := by simpa using hn
  unfold exposureAccepts getProp acceptLists
  simp only [hn', Bool.false_eq_true, if_false]
  cases hacc : e.get (js "accept") with
  | undefined => simp [optIncludes, JsVal.isNullish]
  | null => simp [optIncludes, JsVal.isNullish]
  | arr a => simp [optIncludes, JsVal.isNullish, includes]
  | bool b => rw [hacc] at ha; simp at ha
  | num n => rw [hacc] at ha; simp at ha
  | str t => rw [hacc] at ha; simp at ha
  | obj p => rw [hacc] at ha; simp at ha

theorem envEntryIncludes_wellShaped (v : JsString) (e : JsVal)
    (h : wellShapedEnvEntry e = true) : envEntryIncludes v e = .ok (envEntryHolds v e) := by
  cases e with
  | undefined => simp [envEntryIncludes, optIncludes, JsVal.isNullish, envEntryHolds]
  | null => simp [envEntryIncludes, optIncludes, JsVal.isNullish, envEntryHolds]
  | str t => simp [envEntryIncludes, optIncludes, JsVal.isNullish, envEntryHolds, includes]
  | bool b => simp [wellShapedEnvEntry] at h
  | num n => simp [wellShapedEnvEntry] at h
  | arr a => simp [wellShapedEnvEntry] at h
  | obj p => simp [wellShapedEnvEntry] at h

/-- On a well-shaped service the condition of the inner `if` evaluates without a
`TypeError`, to whether the service holds the value. -/
theorem serviceHasValue_wellShaped (svc : JsVal) (v : JsString)
    (h : wellShapedService svc = true) : serviceHasValue svc v = .ok (holdsValue svc v) := by
  unfold wellShapedService at h
  rw [Bool.and_eq_true, Bool.and_eq_true] at h
  obtain ⟨⟨hn, hex⟩, hen⟩ := h
  have hn' : svc.isNullish = false := by simpa using hn
  have hexpose : optSome (svc.get (js "expose")) (exposureAccepts v) =
      .ok (match svc.get (js "expose") with
        | .arr es => es.any (acceptLists v)
        | _ => false) := by
    cases hx : svc.get (js "expose") with
    | undefined => rfl
    | null => rfl
    | arr es =>
      rw [hx] at hex
      have hall : ∀ e ∈ es, exposureAccepts v e = .ok (acceptLists v e) :=
        fun e he => exposureAccepts_wellShaped v e (List.all_eq_true.mp hex e he)
      simpa [optSome] using arraySome_pure _ _ es hall
    | bool b => rw [hx] at hex; simp at hex
    | num n => rw [hx] at hex; simp at hex
    | str t => rw [hx] at hex; simp at hex
    | obj p => rw [hx] at hex; simp at hex
  have henv : optSome (svc.get (js "env")) (envEntryIncludes v) =
      .ok (match svc.get (js "env") with
        | .arr es => es.any (envEntryHolds v)
        | _ => false) := by
    cases hx : svc.get (js "env") with
    | undefined => rfl
    | null => rfl
    | arr es =>
      rw [hx] at hen
      have hall : ∀ e ∈ es, envEntryIncludes v e = .ok (envEntryHolds v e) :=
        fun e he => envEntryIncludes_wellShaped v e (List.all_eq_true.mp hen e he)
      simpa [optSome] using arraySome_pure _ _ es hall
    | bool b => rw [hx] at hen; simp at hen
    | num n => rw [hx] at hen; simp at hen
    | str t => rw [hx] at hen; simp at hen
    | obj p => rw [hx] at hen; simp at hen
  unfold serviceHasValue getProp holdsValue
  simp only [hn', Bool.false_eq_true, if_false, hexpose, henv]
  cases hb : (match svc.get (js "expose") with
      | .arr es => es.any (acceptLists v)
      | _ => false) with
  | true => simp
  | false => simp

theorem checkServices_eq (v : JsString) (services : List JsVal)
    (hshape : ∀ svc ∈ services, wellShapedService svc = true) :
    checkServices v services =
      if services.any (fun svc => holdsValue svc v) = true
      then .error (templateValidationError v) else .ok () := by
  induction services with
  | nil => simp [checkServices]
  | cons svc rest ih =>
    have hsvc := serviceHasValue_wellShaped svc v (hshape svc (List.mem_cons_self svc rest))
    have hrest := ih (fun y hy => hshape y (List.mem_cons_of_mem svc hy))
    cases hb : holdsValue svc v with
    | true =>
      rw [hb] at hsvc
      simp [checkServices, hsvc, hb]
    | false =>
      rw [hb] at hsvc
      simp only [checkServices, hsvc, List.any_cons, hb, Bool.false_or]
      exact hrest

/-- The scan stops at the first service that holds the value: the services after it
are not looked at, whatever they are. -/
theorem checkServices_stops (v : JsString) (spre spost : List JsVal) (svc : JsVal)
    (hpre : ∀ s ∈ spre, wellShapedService s = true)
    (hsvc : serviceHasValue svc v = .ok true) :
    checkServices v (spre ++ svc :: spost) = .error (templateValidationError v) := by
  induction spre with
  | nil => simp [checkServices, hsvc]
  | cons s rest ih =>
    have hs := serviceHasValue_wellShaped s v (hpre s (List.mem_cons_self s rest))
    have hrest := ih (fun y hy => hpre y (List.mem_cons_of_mem s hy))
    cases hb : holdsValue s v with
    | true =>
      rw [hb] at hs
      simp [checkServices, hs]
    | false =>
      rw [hb] at hs
      simp only [List.cons_append, checkServices, hs]
      exact hrest

theorem checkValues_hit (dd : DeploymentData) (services : List JsVal) (e : ValueToChange)
    (rest : List ValueToChange) (hservices : servicesOf dd = .ok services)
    (hshape : ∀ svc ∈ services, wellShapedService svc = true)
    (h : entryMatches services e = true) :
    checkValues dd (e :: rest) = .error (templateValidationError e.initialValue) := by
  unfold entryMatches at h
  rw [Bool.and_eq_true, Bool.or_eq_true, decide_eq_true_eq, decide_eq_true_eq] at h
  unfold checkValues
  rw [if_pos h.1]
  simp only [hservices, checkServices_eq _ _ hshape, if_pos h.2]

theorem checkValues_miss (dd : DeploymentData) (services : List JsVal) (e : ValueToChange)
    (rest : List ValueToChange) (hservices : servicesOf dd = .ok services)
    (hshape : ∀ svc ∈ services, wellShapedService svc = true)
    (h : entryMatches services e = false) :
    checkValues dd (e :: rest) = checkValues dd rest := by
  by_cases hf : e.field = js "accept" ∨ e.field = js "env"
  · have hany : services.any (fun svc => holdsValue svc e.initialValue) = false := by
      unfold entryMatches at h
      rcases hf with hf | hf <;> simpa [hf] using h
    conv_lhs => unfold checkValues
    rw [if_pos hf]
    simp only [hservices, checkServices_eq _ _ hshape, hany]
    simp
  · conv_lhs => unfold checkValues
    rw [if_neg hf]

theorem checkValues_skip (dd : DeploymentData) (services : List JsVal)
    (pre rest : List ValueToChange) (hservices : servicesOf dd = .ok services)
    (hshape : ∀ svc ∈ services, wellShapedService svc = true)
    (h : ∀ x ∈ pre, entryMatches services x = false) :
    checkValues dd (pre ++ rest) = checkValues dd rest := by
  induction pre with
  | nil => rfl
  | cons x xs ih =>
    rw [List.cons_append, checkValues_miss dd services x _ hservices hshape
      (h x (List.mem_cons_self x xs))]
    exact ih (fun y hy => h y (List.mem_cons_of_mem x hy))

theorem checkValues_ok (dd : DeploymentData) (services : List JsVal)
    (vs : List ValueToChange) (hservices : servicesOf dd = .ok services)
    (hshape : ∀ svc ∈ services, wellShapedService svc = true)
    (h : ∀ x ∈ vs, entryMatches services x = false) : checkValues dd vs = .ok () := by
  have := checkValues_skip dd services vs [] hservices hshape h
  rw [List.append_nil] at this
  rw [this]
  rfl

/-- A list with a matching entry splits at its first matching entry. -/
theorem first_match_split (services : List JsVal) (vs : List ValueToChange)
    (e : ValueToChange) (he : e ∈ vs) (hm : entryMatches services e = true) :
    ∃ pre w post, vs = pre ++ w :: post ∧
      (∀ x ∈ pre, entryMatches services x = false) ∧ entryMatches services w = true := by
  induction vs with
  | nil => cases he
  | cons x xs ih =>
    by_cases hx : entryMatches services x = true
    · exact ⟨[], x, xs, rfl, fun y hy => absurd hy (List.not_mem_nil y), hx⟩
    · have hx' : entryMatches services x = false := by simpa using hx
      have hexs : e ∈ xs := by
        rcases List.mem_cons.mp he with h | h
        · subst h; exact absurd hm hx
        · exact h
      obtain ⟨pre, w, post, hsplit, hpre, hw⟩ := ih hexs
      refine ⟨x :: pre, w, post, by rw [hsplit]; rfl, ?_, hw⟩
      intro y hy
      rcases List.mem_cons.mp hy with h | h
      · subst h; exact hx'
      · exact hpre y h

theorem holdsValue_of_accept (svc : JsVal) (es : List JsVal) (ex : JsVal) (a : List JsVal)
    (v : JsString) (hexpose : svc.get (js "expose") = .arr es) (hex : ex ∈ es)
    (hacc : ex.get (js "accept") = .arr a) (hv : JsVal.str v ∈ a) :
    holdsValue svc v = true := by
  have hlist : acceptLists v ex = true := by
    unfold acceptLists
    rw [hacc]
    exact List.any_eq_true.mpr ⟨.str v, hv, by simp [JsVal.isStr]⟩
  unfold holdsValue
  rw [hexpose]
  have h : es.any (acceptLists v) = true := List.any_eq_true.mpr ⟨ex, hex, hlist⟩
  simp only [h, Bool.true_or]

theorem holdsValue_of_env (svc : JsVal) (entries : List JsVal) (entry v : JsString)
    (henv : svc.get (js "env") = .arr entries) (hentry : JsVal.str entry ∈ entries)
    (hv : strIncludes entry v = true) : holdsValue svc v = true := by
  unfold holdsValue
  rw [henv]
  have h : entries.any (envEntryHolds v) = true :=
    List.any_eq_true.mpr ⟨.str entry, hentry, by simpa [envEntryHolds] using hv⟩
  simp only [h, Bool.or_true]

/-- C3, counterexample: the template is `[{field: "accept", initialValue:
"example.com"}]` and service `web` lists `"example.com"` in the `accept` of its
exposure, but service `a`, scanned first, has `env: [8080]`. Calling `includes` on the
number raises a `TypeError`, which is what `validateDeploymentData` throws; it is not
the `TemplateValidation` error. -/
theorem validateDeploymentData_accept_counterexample :
    servicesOf (mkDeploymentData numericEnvDoc none) =
        .ok [.obj [(js "env", .arr [.num 8080])], webService (js "example.com") none] ∧
      holdsValue (webService (js "example.com") none) (js "example.com") = true ∧
      validateDeploymentData acceptTemplate (mkDeploymentData numericEnvDoc none) =
        .error .typeError ∧
      validateDeploymentData acceptTemplate (mkDeploymentData numericEnvDoc none) ≠
        .error (.value (.str (js "TemplateValidation"))
          (.str (js "Template value of \"example.com\" needs to be changed"))) := by
  have hval : validateDeploymentData acceptTemplate (mkDeploymentData numericEnvDoc none) =
      .error .typeError := by rfl
  refine ⟨by rfl, by rfl, hval, ?_⟩
  rw [hval]
  intro h
  injection h with h1
  exact JsThrown.noConfusion h1

/-- C3, amended: with `valuesToChange = [{field: "accept", initialValue: v}]`, let the
services in key order be `spre`, then `svc`, then `spost`, where `svc` and every
service of `spre` are well-shaped and an exposure of `svc` has `v` as an element of
its `accept` list. Then `validateDeploymentData` throws an error named
`TemplateValidation` whose message is exactly
`Template value of "v" needs to be changed`. -/
theorem validateDeploymentData_accept (v : JsString) (dd : DeploymentData)
    (spre spost : List JsVal) (svc : JsVal) (es : List JsVal) (ex : JsVal)
    (a : List JsVal) (hservices : servicesOf dd = .ok (spre ++ svc :: spost))
    (hpre : ∀ s ∈ spre, wellShapedService s = true)
    (hsvc : wellShapedService svc = true)
    (hexpose : svc.get (js "expose") = .arr es) (hex : ex ∈ es)
    (hacc : ex.get (js "accept") = .arr a) (hv : JsVal.str v ∈ a) :
    validateDeploymentData
        { valuesToChange := some [{ field := js "accept", initialValue := v }] } dd =
      .error (.value (.str (js "TemplateValidation"))
        (.str (js "Template value of \"" ++ v ++ js "\" needs to be changed"))) := by
  have hholds : serviceHasValue svc v = .ok true := by
    rw [serviceHasValue_wellShaped svc v hsvc,
      holdsValue_of_accept svc es ex a v hexpose hex hacc hv]
  have hscan := checkServices_stops v spre spost svc hpre hholds
  show checkValues dd [{ field := js "accept", initialValue := v }] = _
  unfold checkValues
  simp only [true_or, if_true, hservices, hscan]
  rfl

/-- Witness for C3 (amended): the example of the specification, service `web` with
`expose: [{accept: ["example.com"]}]`, after a well-shaped service `db`. -/
theorem validateDeploymentData_accept_witness :
    validateDeploymentData acceptTemplate
        (mkDeploymentData
          (sdlOf [(js "db", .obj [(js "image", .str (js "postgres"))]),
                  (js "web", webService (js "example.com") none)]) none) =
      .error (.value (.str (js "TemplateValidation"))
        (.str (js "Template value of \"example.com\" needs to be changed"))) :=
  (validateDeploymentData_accept (js "example.com")
      (mkDeploymentData
        (sdlOf [(js "db", .obj [(js "image", .str (js "postgres"))]),
                (js "web", webService (js "example.com") none)]) none)
      [.obj [(js "image", .str (js "postgres"))]] []
      (webService (js "example.com") none)
      [.obj [(js "port", .num 80), (js "accept", .arr [.str (js "example.com")])]]
      (.obj [(js "port", .num 80), (js "accept", .arr [.str (js "example.com")])])
      [.str (js "example.com")] (by rfl)
      (by intro s hs; rw [List.mem_singleton.mp hs]; rfl)
      (by rfl) (by rfl) (List.mem_singleton.mpr rfl) (by rfl)
      (List.mem_singleton.mpr rfl)).trans (by rfl)

/-- C6, counterexample: the entry `{field: "accept", initialValue: "example.com"}`
matches service `web`, but service `db`, scanned first, is `null`. Reading `expose`
of `null` raises a `TypeError`, which is what `validateDeploymentData` throws; no
error naming a `valuesToChange` entry is thrown. -/
theorem validateDeploymentData_first_match_counterexample :
    servicesOf (mkDeploymentData nullServiceDoc none) =
        .ok [.null, webService (js "example.com") none] ∧
      entryMatches [.null, webService (js "example.com") none]
        { field := js "accept", initialValue := js "example.com" } = true ∧
      validateDeploymentData acceptEnvTemplate (mkDeploymentData nullServiceDoc none) =
        .error .typeError ∧
      ¬ ∃ w, validateDeploymentData acceptEnvTemplate (mkDeploymentData nullServiceDoc none) =
        .error (templateValidationError w) := by
  have hval : validateDeploymentData acceptEnvTemplate
      (mkDeploymentData nullServiceDoc none) = .error .typeError := by rfl
  refine ⟨by rfl, by rfl, hval, ?_⟩
  rintro ⟨w, hw⟩
  rw [hval] at hw
  injection hw with h1
  exact JsThrown.noConfusion h1

/-- C6, amended: fail-fast, first match wins, on a manifest whose services are
well-shaped. If `valuesToChange` is `pre ++ e :: post` where no entry of `pre`
matches any service, `e` has field `"accept"` or `"env"`, and the services are
`spre ++ svc :: spost` where `svc` holds the initial value of `e`, then
`validateDeploymentData` throws the single error naming the initial value of `e`,
whatever the later entries `post` and the later services `spost` are. -/
theorem validateDeploymentData_first_match (template : Template) (dd : DeploymentData)
    (pre post : List ValueToChange) (e : ValueToChange)
    (spre spost : List JsVal) (svc : JsVal)
    (hvalues : template.valuesToChange = some (pre ++ e :: post))
    (hservices : servicesOf dd = .ok (spre ++ svc :: spost))
    (hshape : ∀ s ∈ spre ++ svc :: spost, wellShapedService s = true)
    (hpre : ∀ x ∈ pre, entryMatches (spre ++ svc :: spost) x = false)
    (hfield : e.field = js "accept" ∨ e.field = js "env")
    (hsvc : holdsValue svc e.initialValue = true) :
    validateDeploymentData template dd =
      .error (.value (.str (js "TemplateValidation"))
        (.str (js "Template value of \"" ++ e.initialValue ++ js "\" needs to be changed"))) := by
  have hm : entryMatches (spre ++ svc :: spost) e = true := by
    unfold entryMatches
    have hany : (spre ++ svc :: spost).any (fun s => holdsValue s e.initialValue) = true :=
      List.any_eq_true.mpr ⟨svc, by simp, hsvc⟩
    rw [hany]
    rcases hfield with h | h <;> simp [h]
  unfold validateDeploymentData
  rw [hvalues]
  show checkValues dd (pre ++ e :: post) = _
  rw [checkValues_skip dd _ _ _ hservices hshape hpre,
    checkValues_hit dd _ _ _ hservices hshape hm]
  rfl

/-- Witness for C6 (amended): the `accept` entry does not match (the host was
changed), the `env` entry does, in the first of two services. -/
theorem validateDeploymentData_first_match_witness :
    validateDeploymentData acceptEnvTemplate
        (mkDeploymentData
          (sdlOf [(js "web", webService (js "myapp.com") (some [.str (js "KEY=CHANGE_ME")])),
                  (js "db", .obj [(js "env", .arr [.str (js "CHANGE_ME")])])])
          none) =
      .error (.value (.str (js "TemplateValidation"))
        (.str (js "Template value of \"CHANGE_ME\" needs to be changed"))) :=
  (validateDeploymentData_first_match acceptEnvTemplate
      (mkDeploymentData
        (sdlOf [(js "web", webService (js "myapp.com") (some [.str (js "KEY=CHANGE_ME")])),
                (js "db", .obj [(js "env", .arr [.str (js "CHANGE_ME")])])])
        none)
      [{ field := js "accept", initialValue := js "example.com" }] []
      { field := js "env", initialValue := js "CHANGE_ME" }
      [] [.obj [(js "env", .arr [.str (js "CHANGE_ME")])]]
      (webService (js "myapp.com") (some [.str (js "KEY=CHANGE_ME")]))
      rfl (by rfl)
      (by
        intro s hs
        rcases List.mem_cons.mp hs with h | h
        · rw [h]; rfl
        · rw [List.mem_singleton.mp h]; rfl)
      (by intro x hx; rw [List.mem_singleton.mp hx]; rfl)
      (by decide) (by rfl)).trans (by rfl)

/-! ## `createAndValidateDeploymentData` -/

theorem createAndValidate_falsy (env : Env) (yamlStr dseq : Option JsString)
    (deposit : Option Nat) (s : State) (h : truthy env.editedManifest = false) :
    createAndValidateDeploymentData env yamlStr dseq deposit s = (s, .ok .null) := by
  simp [createAndValidateDeploymentData, h]

theorem createAndValidate_load_error (env : Env) (yamlStr dseq : Option JsString)
    (deposit : Option Nat) (s : State) (err : JsThrown)
    (ht : truthy env.editedManifest = true) (hl : env.load yamlStr = .error err) :
    createAndValidateDeploymentData env yamlStr dseq deposit s =
      catchClause err (s.call (.yamlLoad yamlStr)) := by
  simp [createAndValidateDeploymentData, ht, hl]

theorem createAndValidate_build_error (env : Env) (yamlStr dseq : Option JsString)
    (deposit : Option Nat) (s : State) (doc : JsVal) (err : JsThrown)
    (ht : truthy env.editedManifest = true) (hl : env.load yamlStr = .ok doc)
    (hb : env.NewDeploymentData env.apiEndpoint doc dseq env.address
      (deposit.getD env.defaultInitialDeposit) = .error err) :
    createAndValidateDeploymentData env yamlStr dseq deposit s =
      catchClause err ((s.call (.yamlLoad yamlStr)).call
        (.NewDeploymentData doc dseq (deposit.getD env.defaultInitialDeposit))) := by
  simp [createAndValidateDeploymentData, ht, hl, hb]

theorem createAndValidate_check_error (env : Env) (yamlStr dseq : Option JsString)
    (deposit : Option Nat) (s : State) (doc : JsVal) (dd : DeploymentData) (err : JsThrown)
    (ht : truthy env.editedManifest = true) (hl : env.load yamlStr = .ok doc)
    (hb : env.NewDeploymentData env.apiEndpoint doc dseq env.address
      (deposit.getD env.defaultInitialDeposit) = .ok dd)
    (hc : validateDeploymentData env.selectedTemplate dd = .error err) :
    createAndValidateDeploymentData env yamlStr dseq deposit s =
      catchClause err (((s.call (.yamlLoad yamlStr)).call
        (.NewDeploymentData doc dseq (deposit.getD env.defaultInitialDeposit))).call
        (.validateDeploymentData dd)) := by
  simp [createAndValidateDeploymentData, ht, hl, hb, hc]

theorem createAndValidate_success (env : Env) (yamlStr dseq : Option JsString)
    (deposit : Option Nat) (s : State) (doc : JsVal) (dd : DeploymentData)
    (ht : truthy env.editedManifest = true) (hl : env.load yamlStr = .ok doc)
    (hb : env.NewDeploymentData env.apiEndpoint doc dseq env.address
      (deposit.getD env.defaultInitialDeposit) = .ok dd)
    (hc : validateDeploymentData env.selectedTemplate dd = .ok ()) :
    createAndValidateDeploymentData env yamlStr dseq deposit s =
      ((((s.call (.yamlLoad yamlStr)).call
        (.NewDeploymentData doc dseq (deposit.getD env.defaultInitialDeposit))).call
        (.validateDeploymentData dd)).setParsingError .null, .ok (.data dd)) := by
  simp [createAndValidateDeploymentData, ht, hl, hb, hc]

theorem isStr_iff (x : JsVal) (s : JsString) : x.isStr s = true ↔ x = .str s := by
  cases x <;> simp [JsVal.isStr]

theorem catchClause_template (v : JsString) (s : State) :
    catchClause (templateValidationError v) s =
      (s.setParsingError (.str (templateMessage v)), .ok .undefined) := by
  have h1 : (JsVal.str (js "TemplateValidation")).isStr (js "YAMLException") = false := by
    decide
  have h2 : (JsVal.str (js "TemplateValidation")).isStr (js "CustomValidationError") = false := by
    decide
  have h3 : (JsVal.str (js "TemplateValidation")).isStr (js "TemplateValidation") = true := by
    decide
  simp [catchClause, templateValidationError, reportError, h1, h2, h3]

/-- C2, counterexample: the template has the entry `{field: "env", initialValue:
"CHANGE_ME"}` and service `web` has `"CHANGE_ME"` in its `env`, but the `accept` entry
before it matches first, so the error thrown is the one for `"example.com"` and its
message does not mention `"CHANGE_ME"`. Second input: the host was changed and the
`env` list is `[true, "CHANGE_ME"]`; calling `includes` on the boolean raises a
`TypeError` before the string is reached. -/
theorem validation_env_counterexample :
    ({ field := js "env", initialValue := js "CHANGE_ME" } : ValueToChange) ∈
        acceptEnvTemplate.valuesToChange.getD [] ∧
      servicesOf (mkDeploymentData unchangedDoc none) =
        .ok [webService (js "example.com") (some [.str (js "CHANGE_ME")])] ∧
      (webService (js "example.com") (some [.str (js "CHANGE_ME")])).get (js "env") =
        .arr [.str (js "CHANGE_ME")] ∧
      validateDeploymentData acceptEnvTemplate (mkDeploymentData unchangedDoc none) =
        .error (.value (.str (js "TemplateValidation"))
          (.str (js "Template value of \"example.com\" needs to be changed"))) ∧
      strIncludes (js "Template value of \"example.com\" needs to be changed")
        (js "CHANGE_ME") = false ∧
      (¬ ∃ msg, validateDeploymentData acceptEnvTemplate (mkDeploymentData unchangedDoc none) =
          .error (.value (.str (js "TemplateValidation")) (.str msg)) ∧
        strIncludes msg (js "CHANGE_ME") = true) ∧
      (webService (js "myapp.com") (some [.bool true, .str (js "CHANGE_ME")])).get (js "env") =
        .arr [.bool true, .str (js "CHANGE_ME")] ∧
      validateDeploymentData acceptEnvTemplate (mkDeploymentData booleanEnvDoc none) =
        .error .typeError := by
  have hval : validateDeploymentData acceptEnvTemplate (mkDeploymentData unchangedDoc none) =
      .error (.value (.str (js "TemplateValidation"))
        (.str (js "Template value of \"example.com\" needs to be changed"))) := by rfl
  have hinc : strIncludes (js "Template value of \"example.com\" needs to be changed")
      (js "CHANGE_ME") = false := by decide
  refine ⟨by decide, by rfl, by rfl, hval, hinc, ?_, by rfl, by rfl⟩
  rintro ⟨msg, hmsg, hin⟩
  rw [hval] at hmsg
  injection hmsg with h1
  injection h1 with _ h2
  injection h2 with h3
  rw [← h3, hinc] at hin
  exact Bool.noConfusion hin

/-- C2, amended: on a manifest whose services are well-shaped, if `valuesToChange` has
an entry `e` with field `"env"` and some service has a string `env` entry in which
`e.initialValue` occurs (in particular an entry equal to it), then `valuesToChange`
splits as `pre ++ w :: post` at its first matching entry `w`, `validateDeploymentData`
throws the `TemplateValidation` error for `w`, and `createAndValidateDeploymentData`
reports that message and returns no deployment data. When no entry before `e`
matches any service, the error is the one for `e.initialValue` and its message
mentions it. -/
theorem validation_env_first_match (template : Template) (dd : DeploymentData)
    (vs : List ValueToChange) (e : ValueToChange) (services : List JsVal) (svc : JsVal)
    (entries : List JsVal) (entry : JsString)
    (hvalues : template.valuesToChange = some vs) (he : e ∈ vs)
    (hfield : e.field = js "env") (hservices : servicesOf dd = .ok services)
    (hshape : ∀ s ∈ services, wellShapedService s = true) (hsvc : svc ∈ services)
    (henv : svc.get (js "env") = .arr entries) (hentry : JsVal.str entry ∈ entries)
    (hv : strIncludes entry e.initialValue = true) :
    (∃ pre w post, vs = pre ++ w :: post ∧
        (∀ x ∈ pre, entryMatches services x = false) ∧ entryMatches services w = true ∧
        validateDeploymentData template dd =
          .error (.value (.str (js "TemplateValidation"))
            (.str (templateMessage w.initialValue))) ∧
        ∀ (env : Env) (yamlStr dseq : Option JsString) (deposit : Option Nat) (s : State)
          (doc : JsVal), env.selectedTemplate = template → truthy env.editedManifest = true →
          env.load yamlStr = .ok doc →
          env.NewDeploymentData env.apiEndpoint doc dseq env.address
            (deposit.getD env.defaultInitialDeposit) = .ok dd →
          (createAndValidateDeploymentData env yamlStr dseq deposit s).2 = .ok .undefined ∧
          (createAndValidateDeploymentData env yamlStr dseq deposit s).1.parsingError =
            .str (templateMessage w.initialValue)) ∧
      (∀ pre post, vs = pre ++ e :: post →
        (∀ x ∈ pre, entryMatches services x = false) →
        validateDeploymentData template dd =
          .error (.value (.str (js "TemplateValidation"))
            (.str (templateMessage e.initialValue))) ∧
        strIncludes (templateMessage e.initialValue) e.initialValue = true) := by
  have hm : entryMatches services e = true := by
    unfold entryMatches
    have hany : services.any (fun s => holdsValue s e.initialValue) = true :=
      List.any_eq_true.mpr ⟨svc, hsvc, holdsValue_of_env svc entries entry _ henv hentry hv⟩
    simp [hany, hfield]
  have hval : validateDeploymentData template dd = checkValues dd vs := by
    unfold validateDeploymentData
    rw [hvalues]
  constructor
  · obtain ⟨pre, w, post, hsplit, hpre, hw⟩ := first_match_split services vs e he hm
    have hres : validateDeploymentData template dd =
        .error (templateValidationError w.initialValue) := by
      rw [hval, hsplit, checkValues_skip dd _ _ _ hservices hshape hpre,
        checkValues_hit dd _ _ _ hservices hshape hw]
    refine ⟨pre, w, post, hsplit, hpre, hw, hres, ?_⟩
    intro env yamlStr dseq deposit s doc htemplate ht hl hb
    have hc : validateDeploymentData env.selectedTemplate dd =
        .error (templateValidationError w.initialValue) := by
      rw [htemplate, hres]
    rw [createAndValidate_check_error env yamlStr dseq deposit s doc dd _ ht hl hb hc,
      catchClause_template]
    exact ⟨rfl, rfl⟩
  · intro pre post hsplit hpre
    refine ⟨?_, ?_⟩
    · rw [hval, hsplit, checkValues_skip dd _ _ _ hservices hshape hpre,
        checkValues_hit dd _ _ _ hservices hshape hm]
      rfl
    · unfold templateMessage
      rw [List.append_assoc]
      exact strIncludes_append _ _ _

/-- Witness for C2 (amended): `valuesToChange = [accept "example.com", env "CHANGE_ME"]`
and a service whose host was changed but whose `env` still holds `"CHANGE_ME"`. -/
theorem validation_env_first_match_witness :
    validateDeploymentData acceptEnvTemplate
        (mkDeploymentData
          (sdlOf [(js "web", webService (js "myapp.com") (some [.str (js "CHANGE_ME")]))])
          none) =
      .error (.value (.str (js "TemplateValidation"))
        (.str (js "Template value of \"CHANGE_ME\" needs to be changed"))) ∧
    strIncludes (js "Template value of \"CHANGE_ME\" needs to be changed")
      (js "CHANGE_ME") = true :=
  have h := (validation_env_first_match acceptEnvTemplate
      (mkDeploymentData
        (sdlOf [(js "web", webService (js "myapp.com") (some [.str (js "CHANGE_ME")]))])
        none)
      [{ field := js "accept", initialValue := js "example.com" },
       { field := js "env", initialValue := js "CHANGE_ME" }]
      { field := js "env", initialValue := js "CHANGE_ME" }
      [webService (js "myapp.com") (some [.str (js "CHANGE_ME")])]
      (webService (js "myapp.com") (some [.str (js "CHANGE_ME")]))
      [.str (js "CHANGE_ME")] (js "CHANGE_ME")
      rfl (by decide) rfl (by rfl)
      (by intro s hs; rw [List.mem_singleton.mp hs]; rfl)
      (List.mem_singleton.mpr rfl) (by rfl) (List.mem_singleton.mpr rfl) (by decide)).2
    [{ field := js "accept", initialValue := js "example.com" }] [] rfl
    (by intro x hx; rw [List.mem_singleton.mp hx]; rfl)
  ⟨h.1.trans (by rfl), h.2⟩

theorem holdsValue_eq_false (svc : JsVal) (v : JsString)
    (haccept : ∀ es, svc.get (js "expose") = .arr es → ∀ ex ∈ es, ∀ a,
      ex.get (js "accept") = .arr a → JsVal.str v ∉ a)
    (henv : ∀ entries, svc.get (js "env") = .arr entries → ∀ entry,
      JsVal.str entry ∈ entries → strIncludes entry v = false) :
    holdsValue svc v = false := by
  unfold holdsValue
  rw [Bool.or_eq_false_iff]
  constructor
  · cases hex : svc.get (js "expose") with
    | arr es =>
      show es.any (acceptLists v) = false
      rw [List.any_eq_false]
      intro ex hmem
      unfold acceptLists
      cases hacc : ex.get (js "accept") with
      | arr a =>
        have hnot := haccept es hex ex hmem a hacc
        have : a.any (fun i => i.isStr v) = false := by
          rw [List.any_eq_false]
          intro i hi hstr
          exact hnot ((isStr_iff i v).mp hstr ▸ hi)
        simp [this]
      | _ => simp
    | _ => rfl
  · cases hen : svc.get (js "env") with
    | arr entries =>
      show entries.any (envEntryHolds v) = false
      rw [List.any_eq_false]
      intro entry hmem
      cases entry with
      | str t => simpa [envEntryHolds] using henv entries hen t hmem
      | _ => simp [envEntryHolds]
    | _ => rfl

/-- C4, counterexample: the text parses, the builder succeeds, and neither the
`accept` list (`["myapp.com"]`) nor the `env` list (`[8080]`) of the only service
holds `"example.com"`; but `includes` is called on the number `8080`, the template
check throws a `TypeError`, and `createAndValidateDeploymentData` reports
`"Error while parsing SDL file"` and returns `undefined` instead of the deployment
data. -/
theorem createAndValidate_succeeds_counterexample :
    (exampleEnv acceptTemplate (js "services: ...") portEnvDoc).load
        (some (js "services: ...")) = .ok portEnvDoc ∧
      servicesOf (mkDeploymentData portEnvDoc (some (js "TEST_DSEQ_VALIDATION"))) =
        .ok [webService (js "myapp.com") (some [.num 8080])] ∧
      holdsValue (webService (js "myapp.com") (some [.num 8080])) (js "example.com") = false ∧
      validateDeploymentData acceptTemplate
        (mkDeploymentData portEnvDoc (some (js "TEST_DSEQ_VALIDATION"))) =
        .error .typeError ∧
      (createAndValidateDeploymentData
        (exampleEnv acceptTemplate (js "services: ...") portEnvDoc)
        (some (js "services: ...")) (some (js "TEST_DSEQ_VALIDATION")) none
        initialState).2 = .ok .undefined ∧
      (createAndValidateDeploymentData
        (exampleEnv acceptTemplate (js "services: ...") portEnvDoc)
        (some (js "services: ...")) (some (js "TEST_DSEQ_VALIDATION")) none
        initialState).1.parsingError = .str (js "Error while parsing SDL file") := by
  refine ⟨by rfl, by rfl, by rfl, by rfl, by rfl, by rfl⟩

/-- C4, amended: the edited manifest is non-empty, the text parses to `doc`, the
builder succeeds with a deployment data `dd` built around `doc`, the services of the
document are well-shaped, no exposure of a service has the initial value of a
`valuesToChange` entry in its `accept` list and no `env` entry of a service contains
one. Then `validateDeploymentData` returns normally and
`createAndValidateDeploymentData` clears the parsing error and returns exactly the
`dd` that the builder produced. -/
theorem createAndValidate_succeeds (env : Env) (yamlStr dseq : Option JsString)
    (deposit : Option Nat) (s : State) (doc : JsVal) (dd : DeploymentData)
    (services : List JsVal)
    (ht : truthy env.editedManifest = true) (hl : env.load yamlStr = .ok doc)
    (hb : env.NewDeploymentData env.apiEndpoint doc dseq env.address
      (deposit.getD env.defaultInitialDeposit) = .ok dd)
    (hsdl : dd.sdl = doc)
    (hservices : keyedValues (doc.get (js "services")) = .ok services)
    (hdoc : doc.isNullish = false)
    (hshape : ∀ svc ∈ services, wellShapedService svc = true)
    (haccept : ∀ e ∈ env.selectedTemplate.valuesToChange.getD [], ∀ svc ∈ services,
      ∀ es, svc.get (js "expose") = .arr es → ∀ ex ∈ es, ∀ a,
        ex.get (js "accept") = .arr a → JsVal.str e.initialValue ∉ a)
    (henv : ∀ e ∈ env.selectedTemplate.valuesToChange.getD [], ∀ svc ∈ services,
      ∀ entries, svc.get (js "env") = .arr entries → ∀ entry,
        JsVal.str entry ∈ entries → strIncludes entry e.initialValue = false) :
    validateDeploymentData env.selectedTemplate dd = .ok () ∧
      (createAndValidateDeploymentData env yamlStr dseq deposit s).2 = .ok (.data dd) ∧
      (createAndValidateDeploymentData env yamlStr dseq deposit s).1.parsingError = .null := by
  have hsv : servicesOf dd = .ok services := by
    unfold servicesOf getProp
    rw [hsdl, hdoc]
    simpa using hservices
  have hc : validateDeploymentData env.selectedTemplate dd = .ok () := by
    unfold validateDeploymentData
    cases hvs : env.selectedTemplate.valuesToChange with
    | none => rfl
    | some vs =>
      show checkValues dd vs = .ok ()
      apply checkValues_ok dd services vs hsv hshape
      intro x hx
      have hx' : x ∈ env.selectedTemplate.valuesToChange.getD [] := by
        rw [hvs]; exact hx
      have hany : services.any (fun svc => holdsValue svc x.initialValue) = false := by
        rw [List.any_eq_false]
        intro svc hmem
        have := holdsValue_eq_false svc x.initialValue
          (haccept x hx' svc hmem) (henv x hx' svc hmem)
        simp [this]
      unfold entryMatches
      rw [hany, Bool.and_false]
  rw [createAndValidate_success env yamlStr dseq deposit s doc dd ht hl hb hc]
  exact ⟨hc, rfl, rfl⟩

/-- Witness for C4 (amended): the example of the specification after `accept` was
changed to `["myapp.com"]`, starting from a state that still shows an earlier parsing
error. -/
theorem createAndValidate_succeeds_witness :
    (createAndValidateDeploymentData
        (exampleEnv acceptTemplate (js "services: ...")
          (sdlOf [(js "web", webService (js "myapp.com") none)]))
        (some (js "services: ...")) (some (js "TEST_DSEQ_VALIDATION")) none staleErrorState).2 =
      .ok (.data (mkDeploymentData (sdlOf [(js "web", webService (js "myapp.com") none)])
        (some (js "TEST_DSEQ_VALIDATION")))) ∧
    (createAndValidateDeploymentData
        (exampleEnv acceptTemplate (js "services: ...")
          (sdlOf [(js "web", webService (js "myapp.com") none)]))
        (some (js "services: ...")) (some (js "TEST_DSEQ_VALIDATION")) none
        staleErrorState).1.parsingError = .null :=
  have h := createAndValidate_succeeds
    (exampleEnv acceptTemplate (js "services: ...")
      (sdlOf [(js "web", webService (js "myapp.com") none)]))
    (some (js "services: ...")) (some (js "TEST_DSEQ_VALIDATION")) none staleErrorState
    (sdlOf [(js "web", webService (js "myapp.com") none)])
    (mkDeploymentData (sdlOf [(js "web", webService (js "myapp.com") none)])
      (some (js "TEST_DSEQ_VALIDATION")))
    [webService (js "myapp.com") none]
    (by decide) (by rfl) (by rfl) rfl (by rfl) (by rfl)
    (by intro svc hs; rw [List.mem_singleton.mp hs]; rfl)
    (by
      intro e he svc hs es hes ex hex a ha
      have he' : e = { field := js "accept", initialValue := js "example.com" } := by
        simpa [exampleEnv, acceptTemplate] using he
      have hs' : svc = webService (js "myapp.com") none := List.mem_singleton.mp hs
      subst he' hs'
      have hes' : JsVal.arr [.obj [(js "port", .num 80),
          (js "accept", .arr [.str (js "myapp.com")])]] = JsVal.arr es := hes
      injection hes' with hes''
      subst hes''
      have hex' := List.mem_singleton.mp hex
      subst hex'
      have ha' : JsVal.arr [.str (js "myapp.com")] = JsVal.arr a := ha
      injection ha' with ha''
      subst ha''
      intro hmem
      have hstr := List.mem_singleton.mp hmem
      injection hstr with hstr'
      exact absurd hstr' (by decide))
    (by
      intro e _ svc hs entries hentries
      have hs' : svc = webService (js "myapp.com") none := List.mem_singleton.mp hs
      subst hs'
      have : JsVal.undefined = JsVal.arr entries := hentries
      exact JsVal.noConfusion this)
  ⟨h.2.1, h.2.2⟩

/-- C5: when the edited manifest is non-empty and `yaml.load` fails on the text, that
is, throws its `YAMLException`, `createAndValidateDeploymentData` returns `undefined`
(no deployment data), makes no call besides the one to the parser (neither the builder
nor the template check runs), and sets the parsing error to the parser's message. -/
theorem createAndValidate_parse_failure (env : Env) (yamlStr dseq : Option JsString)
    (deposit : Option Nat) (s : State) (message : JsVal)
    (ht : truthy env.editedManifest = true)
    (hl : env.load yamlStr = .error (.value (.str (js "YAMLException")) message)) :
    createAndValidateDeploymentData env yamlStr dseq deposit s =
      ({ parsingError := message
         isCreatingDeployment := s.isCreatingDeployment
         calls := s.calls ++ [.yamlLoad yamlStr] }, .ok .undefined) := by
  rw [createAndValidate_load_error env yamlStr dseq deposit s _ ht hl]
  have h1 : (JsVal.str (js "YAMLException")).isStr (js "YAMLException") = true := by decide
  simp [catchClause, reportError, h1, State.setParsingError, State.call]

/-- Witness for C5: the text `"services: ["` is rejected by the parser. -/
theorem createAndValidate_parse_failure_witness :
    createAndValidateDeploymentData unparsableEnv (some (js "services: ["))
        (some (js "TEST_DSEQ_VALIDATION")) none initialState =
      ({ parsingError := .str (js "bad indentation")
         isCreatingDeployment := false
         calls := [.yamlLoad (some (js "services: ["))] }, .ok .undefined) :=
  createAndValidate_parse_failure unparsableEnv (some (js "services: ["))
    (some (js "TEST_DSEQ_VALIDATION")) none initialState (.str (js "bad indentation"))
    (by decide) (by rfl)

theorem reportError_spec (err : JsThrown) (name message : JsVal) (s : State) :
    (reportError err name message s).2 = .ok .undefined ∧
      ((name = .str (js "YAMLException") ∨ name = .str (js "CustomValidationError") ∨
          name = .str (js "TemplateValidation")) →
        (reportError err name message s).1.parsingError = message ∧
        (reportError err name message s).1.calls = s.calls) ∧
      (¬ (name = .str (js "YAMLException") ∨ name = .str (js "CustomValidationError") ∨
          name = .str (js "TemplateValidation")) →
        (reportError err name message s).1.parsingError =
          .str (js "Error while parsing SDL file") ∧
        (reportError err name message s).1.calls = s.calls ++ [.consoleError err]) := by
  by_cases h1 : name = .str (js "YAMLException")
  · have e1 : name.isStr (js "YAMLException") = true := (isStr_iff _ _).mpr h1
    simp only [reportError, e1, Bool.true_or, if_true, State.setParsingError]
    exact ⟨trivial, fun _ => ⟨trivial, trivial⟩, fun hn => absurd (Or.inl h1) hn⟩
  · have e1 : name.isStr (js "YAMLException") = false := by
      cases hb : name.isStr (js "YAMLException") with
      | false => rfl
      | true => exact absurd ((isStr_iff _ _).mp hb) h1
    by_cases h2 : name = .str (js "CustomValidationError")
    · have e2 : name.isStr (js "CustomValidationError") = true := (isStr_iff _ _).mpr h2
      simp only [reportError, e1, e2, Bool.or_true, if_true, State.setParsingError]
      exact ⟨trivial, fun _ => ⟨trivial, trivial⟩, fun hn => absurd (Or.inr (Or.inl h2)) hn⟩
    · have e2 : name.isStr (js "CustomValidationError") = false := by
        cases hb : name.isStr (js "CustomValidationError") with
        | false => rfl
        | true => exact absurd ((isStr_iff _ _).mp hb) h2
      by_cases h3 : name = .str (js "TemplateValidation")
      · have e3 : name.isStr (js "TemplateValidation") = true := (isStr_iff _ _).mpr h3
        simp only [reportError, e1, e2, e3, Bool.or_self, Bool.false_eq_true, if_false,
          if_true, State.setParsingError]
        exact ⟨trivial, fun _ => ⟨trivial, trivial⟩,
          fun hn => absurd (Or.inr (Or.inr h3)) hn⟩
      · have e3 : name.isStr (js "TemplateValidation") = false := by
          cases hb : name.isStr (js "TemplateValidation") with
          | false => rfl
          | true => exact absurd ((isStr_iff _ _).mp hb) h3
        have hnone : ¬ (name = .str (js "YAMLException") ∨
            name = .str (js "CustomValidationError") ∨
            name = .str (js "TemplateValidation")) := by
          rintro (h | h | h)
          · exact h1 h
          · exact h2 h
          · exact h3 h
        simp only [reportError, e1, e2, e3, Bool.or_self, Bool.false_eq_true, if_false,
          State.setParsingError, State.call]
        exact ⟨trivial, fun h => absurd h hnone, fun _ => ⟨trivial, trivial⟩⟩

/-- Every throw inside the `try` block is handled by the `catch` clause, entered with
the parsing error as it was. -/
theorem createAndValidate_thrown (env : Env) (yamlStr dseq : Option JsString)
    (deposit : Option Nat) (s : State) (err : JsThrown)
    (ht : truthy env.editedManifest = true)
    (hthrown : env.load yamlStr = .error err ∨
      (∃ doc, env.load yamlStr = .ok doc ∧
        env.NewDeploymentData env.apiEndpoint doc dseq env.address
          (deposit.getD env.defaultInitialDeposit) = .error err) ∨
      (∃ doc dd, env.load yamlStr = .ok doc ∧
        env.NewDeploymentData env.apiEndpoint doc dseq env.address
          (deposit.getD env.defaultInitialDeposit) = .ok dd ∧
        validateDeploymentData env.selectedTemplate dd = .error err)) :
    ∃ s', s'.parsingError = s.parsingError ∧
      createAndValidateDeploymentData env yamlStr dseq deposit s = catchClause err s' := by
  rcases hthrown with hl | ⟨doc, hl, hb⟩ | ⟨doc, dd, hl, hb, hc⟩
  · exact ⟨s.call (.yamlLoad yamlStr), rfl,
      createAndValidate_load_error env yamlStr dseq deposit s err ht hl⟩
  · exact ⟨(s.call (.yamlLoad yamlStr)).call
        (.NewDeploymentData doc dseq (deposit.getD env.defaultInitialDeposit)), rfl,
      createAndValidate_build_error env yamlStr dseq deposit s doc err ht hl hb⟩
  · exact ⟨((s.call (.yamlLoad yamlStr)).call
        (.NewDeploymentData doc dseq (deposit.getD env.defaultInitialDeposit))).call
        (.validateDeploymentData dd), rfl,
      createAndValidate_check_error env yamlStr dseq deposit s doc dd err ht hl hb hc⟩

/-- C8: let the parser, the builder or the template check throw `err` (the edited
manifest being non-empty, so that they run), `err` being any value other than `null`
or `undefined`. Then `createAndValidateDeploymentData` does not throw and returns
`undefined` (no deployment data). The parsing error becomes the `message` of `err`,
whatever value that is, when its `name` is `"YAMLException"`,
`"CustomValidationError"` or `"TemplateValidation"`; for every other value, an engine
`TypeError` included, it becomes `"Error while parsing SDL file"` and `err` is logged
with `console.error`. -/
theorem createAndValidate_reports_thrown (env : Env) (yamlStr dseq : Option JsString)
    (deposit : Option Nat) (s : State) (err : JsThrown)
    (ht : truthy env.editedManifest = true)
    (hthrown : env.load yamlStr = .error err ∨
      (∃ doc, env.load yamlStr = .ok doc ∧
        env.NewDeploymentData env.apiEndpoint doc dseq env.address
          (deposit.getD env.defaultInitialDeposit) = .error err) ∨
      (∃ doc dd, env.load yamlStr = .ok doc ∧
        env.NewDeploymentData env.apiEndpoint doc dseq env.address
          (deposit.getD env.defaultInitialDeposit) = .ok dd ∧
        validateDeploymentData env.selectedTemplate dd = .error err))
    (hne : err ≠ .nullish) :
    (createAndValidateDeploymentData env yamlStr dseq deposit s).2 = .ok .undefined ∧
      (∀ name message, err = .value name message →
        ((name = .str (js "YAMLException") ∨ name = .str (js "CustomValidationError") ∨
            name = .str (js "TemplateValidation")) →
          (createAndValidateDeploymentData env yamlStr dseq deposit s).1.parsingError =
            message) ∧
        (¬ (name = .str (js "YAMLException") ∨ name = .str (js "CustomValidationError") ∨
            name = .str (js "TemplateValidation")) →
          (createAndValidateDeploymentData env yamlStr dseq deposit s).1.parsingError =
            .str (js "Error while parsing SDL file") ∧
          (createAndValidateDeploymentData env yamlStr dseq deposit s).1.calls.getLast? =
            some (.consoleError err))) ∧
      (err = .typeError →
        (createAndValidateDeploymentData env yamlStr dseq deposit s).1.parsingError =
          .str (js "Error while parsing SDL file") ∧
        (createAndValidateDeploymentData env yamlStr dseq deposit s).1.calls.getLast? =
          some (.consoleError err)) := by
  obtain ⟨s', _, hrun⟩ := createAndValidate_thrown env yamlStr dseq deposit s err ht hthrown
  rw [hrun]
  cases err with
  | nullish => exact absurd rfl hne
  | typeError =>
    obtain ⟨h1, _, h3⟩ := reportError_spec .typeError (.str (js "TypeError")) .undefined s'
    have hn : ¬ (JsVal.str (js "TypeError") = .str (js "YAMLException") ∨
        JsVal.str (js "TypeError") = .str (js "CustomValidationError") ∨
        JsVal.str (js "TypeError") = .str (js "TemplateValidation")) := by
      rintro (h | h | h) <;> (injection h with h'; exact absurd h' (by decide))
    obtain ⟨h4, h5⟩ := h3 hn
    refine ⟨h1, ?_, ?_⟩
    · intro name message h
      exact JsThrown.noConfusion h
    · intro _
      refine ⟨h4, ?_⟩
      show (reportError .typeError (.str (js "TypeError")) .undefined s').1.calls.getLast? = _
      rw [h5]
      simp
  | value name message =>
    obtain ⟨h1, h2, h3⟩ := reportError_spec (.value name message) name message s'
    refine ⟨h1, ?_, ?_⟩
    · intro name' message' h
      injection h with hn hm
      subst hn hm
      refine ⟨fun hk => (h2 hk).1, fun hk => ⟨(h3 hk).1, ?_⟩⟩
      show (reportError (.value name message) name message s').1.calls.getLast? = _
      rw [(h3 hk).2]
      simp
    · intro h
      exact JsThrown.noConfusion h

/-- Witness for C8: the builder throws an `Error` whose `name` is `"Error"` and whose
message is `"Network Error"`; the generic message is reported. -/
theorem createAndValidate_reports_thrown_witness :
    (createAndValidateDeploymentData failingBuilderEnv
        (some (js "services: {}")) none none initialState).2 = .ok .undefined ∧
    (createAndValidateDeploymentData failingBuilderEnv
        (some (js "services: {}")) none none initialState).1.parsingError =
      .str (js "Error while parsing SDL file") :=
  have h := createAndValidate_reports_thrown failingBuilderEnv
    (some (js "services: {}")) none none initialState
    (.value (.str (js "Error")) (.str (js "Network Error")))
    (by decide) (Or.inr (Or.inl ⟨sdlOf [], by rfl, by rfl⟩))
    (fun h => JsThrown.noConfusion h)
  ⟨h.1, ((h.2.1 (.str (js "Error")) (.str (js "Network Error")) rfl).2
    (by rintro (h | h | h) <;> (injection h with h'; exact absurd h' (by decide)))).1⟩

/-- C9, counterexample: an earlier edit left the parsing error `"bad indentation"`; the
editor is then emptied. The call returns `null` without touching the parsing error,
which therefore is still set, and the alert still shown, afterwards. -/
theorem createAndValidate_empty_counterexample :
    truthy emptyEditorEnv.editedManifest = false ∧
      createAndValidateDeploymentData emptyEditorEnv emptyEditorEnv.editedManifest
        (some (js "TEST_DSEQ_VALIDATION")) none staleErrorState =
        (staleErrorState, .ok .null) ∧
      (createAndValidateDeploymentData emptyEditorEnv emptyEditorEnv.editedManifest
        (some (js "TEST_DSEQ_VALIDATION")) none staleErrorState).1.parsingError =
        .str (js "bad indentation") ∧
      (createAndValidateDeploymentData emptyEditorEnv emptyEditorEnv.editedManifest
        (some (js "TEST_DSEQ_VALIDATION")) none staleErrorState).1.parsingError ≠ .null ∧
      alertVisible (createAndValidateDeploymentData emptyEditorEnv
        emptyEditorEnv.editedManifest (some (js "TEST_DSEQ_VALIDATION")) none
        staleErrorState).1 = true := by
  refine ⟨by decide, by rfl, by rfl, ?_, by rfl⟩
  intro h
  have h' : JsVal.str (js "bad indentation") = JsVal.null := h
  exact JsVal.noConfusion h'

/-- C9, amended: for an empty or absent edited manifest,
`createAndValidateDeploymentData` returns `null` and leaves the state as it was: no
call to the parser, the builder or the template check is made, no new parsing error is
raised, and the parsing error keeps its earlier value (it is `null` afterwards exactly
when it was `null` before). -/
theorem createAndValidate_empty_manifest (env : Env) (yamlStr dseq : Option JsString)
    (deposit : Option Nat) (s : State) (h : truthy env.editedManifest = false) :
    createAndValidateDeploymentData env yamlStr dseq deposit s = (s, .ok .null) ∧
      (createAndValidateDeploymentData env yamlStr dseq deposit s).1.calls = s.calls ∧
      (createAndValidateDeploymentData env yamlStr dseq deposit s).1.parsingError =
        s.parsingError := by
  rw [createAndValidate_falsy env yamlStr dseq deposit s h]
  exact ⟨rfl, rfl, rfl⟩

/-- Witness for C9 (amended): the empty editor in the initial state. -/
theorem createAndValidate_empty_manifest_witness :
    truthy emptyEditorEnv.editedManifest = false ∧
      createAndValidateDeploymentData emptyEditorEnv emptyEditorEnv.editedManifest
        (some (js "TEST_DSEQ_VALIDATION")) none initialState = (initialState, .ok .null) :=
  ⟨by decide,
   (createAndValidate_empty_manifest emptyEditorEnv emptyEditorEnv.editedManifest
     (some (js "TEST_DSEQ_VALIDATION")) none initialState (by decide)).1⟩

/-! ## `handleCreateClick` -/

theorem catchClause_flag (err : JsThrown) (s : State) :
    (catchClause err s).1.isCreatingDeployment = s.isCreatingDeployment := by
  unfold catchClause
  cases err with
  | nullish => rfl
  | typeError =>
    simp only [reportError]
    split
    · rfl
    · split <;> rfl
  | value name message =>
    simp only [reportError]
    split
    · rfl
    · split <;> rfl

theorem createAndValidate_flag (env : Env) (yamlStr dseq : Option JsString)
    (deposit : Option Nat) (s : State) :
    (createAndValidateDeploymentData env yamlStr dseq deposit s).1.isCreatingDeployment =
      s.isCreatingDeployment := by
  unfold createAndValidateDeploymentData
  split
  · simp only
    split
    · rw [catchClause_flag]; rfl
    · split
      · rw [catchClause_flag]; rfl
      · split
        · rw [catchClause_flag]; rfl
        · rfl
  · rfl

/-- Once validation has produced a deployment data value, the `finally` clause runs:
the flag is `false` whether the promise resolves or rejects. -/
theorem handleCreateClick_flag_cleared (env : Env) (deposit : Option Nat) (s s2 : State)
    (dd : DeploymentData)
    (h : createAndValidateDeploymentData env env.editedManifest none deposit
      (s.setIsCreatingDeployment true) = (s2, .ok (.data dd))) :
    (handleCreateClick env deposit s).1.isCreatingDeployment = false := by
  unfold handleCreateClick
  simp only [h]
  split <;> rfl

/-- When validation yields no deployment data (it returns `null` or `undefined`, or
rejects), `handleCreateClick` leaves before the `try` statement and the flag stays
`true`. -/
theorem handleCreateClick_flag_kept (env : Env) (deposit : Option Nat) (s : State)
    (h : ∀ dd, (createAndValidateDeploymentData env env.editedManifest none deposit
      (s.setIsCreatingDeployment true)).2 ≠ .ok (.data dd)) :
    (handleCreateClick env deposit s).1.isCreatingDeployment = true := by
  have hflag := createAndValidate_flag env env.editedManifest none deposit
    (s.setIsCreatingDeployment true)
  unfold handleCreateClick
  simp only
  split
  · next s2 err heq => rw [heq] at hflag; exact hflag
  · next s2 heq => rw [heq] at hflag; exact hflag
  · next s2 heq => rw [heq] at hflag; exact hflag
  · next s2 dd heq => exact absurd (by rw [heq]) (h dd)

/-- C1: `handleCreateClick` on a manifest text the parser rejects. Validation reports
the error and returns `undefined`, `if (!dd) return` leaves the function before the
`try ... finally`, and the promise resolves with `isCreatingDeployment` still `true`. -/
theorem handleCreateClick_flag_stuck :
    handleCreateClick unparsableEnv (some 5000000) initialState =
      ({ parsingError := .str (js "bad indentation")
         isCreatingDeployment := true
         calls := [.yamlLoad (some (js "services: ["))] }, .ok ()) := by
  rfl

/-! ## Debounce -/

theorem edit_quiet (d : Debounce) (dt : Nat) (text : Option JsString)
    (hquiet : d.timers = []) (hid : 0 < d.nextId) :
    PendingOne (edit dt text d) text d.validated := by
  refine ⟨d.nextId, by omega, ?_, ?_, ?_, ?_⟩
  · cases h : d.timeoutId with
    | none => simp [edit, effect, cleanup, elapse, setTimeout, h]
    | some id =>
      by_cases h0 : id = 0 <;>
        simp [edit, effect, cleanup, elapse, setTimeout, clearTimeout, h, h0]
  · cases h : d.timeoutId with
    | none => simp [edit, effect, cleanup, elapse, setTimeout, h]
    | some id =>
      by_cases h0 : id = 0 <;>
        simp [edit, effect, cleanup, elapse, setTimeout, clearTimeout, h, h0]
  · cases h : d.timeoutId with
    | none => simp [edit, effect, cleanup, elapse, setTimeout, h, hquiet]
    | some id =>
      by_cases h0 : id = 0 <;>
        simp [edit, effect, cleanup, elapse, setTimeout, clearTimeout, h, h0, hquiet]
  · cases h : d.timeoutId with
    | none => simp [edit, effect, cleanup, elapse, setTimeout, h, hquiet]
    | some id =>
      by_cases h0 : id = 0 <;>
        simp [edit, effect, cleanup, elapse, setTimeout, clearTimeout, h, h0, hquiet]

theorem edit_pending (d : Debounce) (dt : Nat) (old text : Option JsString)
    (base : List (Option JsString)) (hp : PendingOne d old base) (hdt : dt < 500) :
    PendingOne (edit dt text d) text base := by
  obtain ⟨id, hid0, hidlt, htid, htimers, hval⟩ := hp
  have hnot : ¬ (d.now + 500 ≤ d.now + dt) := by omega
  refine ⟨d.nextId, by omega, ?_, ?_, ?_, ?_⟩
  · simp [edit, effect, cleanup, elapse, setTimeout, clearTimeout, htid, hid0]
  · simp [edit, effect, cleanup, elapse, setTimeout, clearTimeout, htid, hid0]
  · simp [edit, effect, cleanup, elapse, setTimeout, clearTimeout, htid, hid0, htimers, hnot]
  · simp [edit, effect, cleanup, elapse, setTimeout, clearTimeout, htid, hid0, htimers, hnot,
      hval]

theorem editAll_pending (rest : List (Nat × Option JsString)) :
    ∀ (d : Debounce) (cur : Nat × Option JsString) (base : List (Option JsString)),
      PendingOne d cur.2 base → (∀ e ∈ rest, e.1 < 500) →
      PendingOne (editAll rest d) ((cur :: rest).getLast (List.cons_ne_nil cur rest)).2 base := by
  induction rest with
  | nil =>
    intro d cur base hp _
    simpa [editAll] using hp
  | cons e es ih =>
    intro d cur base hp hgap
    have hstep : PendingOne (edit e.1 e.2 d) e.2 base :=
      edit_pending d e.1 cur.2 e.2 base hp (hgap e (List.mem_cons_self e es))
    have hrest := ih (edit e.1 e.2 d) e base hstep
      (fun x hx => hgap x (List.mem_cons_of_mem e hx))
    have hlast : (cur :: e :: es).getLast (List.cons_ne_nil cur (e :: es)) =
        (e :: es).getLast (List.cons_ne_nil e es) := List.getLast_cons_cons cur e es
    rw [hlast]
    exact hrest

theorem elapse_pending (d : Debounce) (wait : Nat) (text : Option JsString)
    (base : List (Option JsString)) (hp : PendingOne d text base) (hwait : 500 ≤ wait) :
    (elapse wait d).validated = base ++ [text] ∧ (elapse wait d).timers = [] := by
  obtain ⟨id, _, _, _, htimers, hval⟩ := hp
  have hdue : d.now + 500 ≤ d.now + wait := by omega
  constructor
  · simp [elapse, htimers, hval, hdue]
  · simp [elapse, htimers, hdue]

theorem edit_first (d : Debounce) (dt : Nat) (text : Option JsString)
    (hid : 0 < d.nextId)
    (hwf : d.timers = [] ∨ ∃ old, PendingOne d old d.validated) :
    PendingOne (edit dt text d) text (elapse dt d).validated := by
  rcases hwf with hquiet | ⟨old, hp⟩
  · have h := edit_quiet d dt text hquiet hid
    have hv : (elapse dt d).validated = d.validated := by simp [elapse, hquiet]
    rw [hv]
    exact h
  · by_cases hdt : dt < 500
    · have h := edit_pending d dt old text d.validated hp hdt
      obtain ⟨id, _, _, _, htimers, _⟩ := hp
      have hnot : ¬ (d.now + 500 ≤ d.now + dt) := by omega
      have hv : (elapse dt d).validated = d.validated := by simp [elapse, htimers, hnot]
      rw [hv]
      exact h
    · obtain ⟨id, hid0, hidlt, htid, htimers, _⟩ := hp
      have hdue : d.now + 500 ≤ d.now + dt := by omega
      refine ⟨d.nextId, by omega, ?_, ?_, ?_, ?_⟩
      · simp [edit, effect, cleanup, elapse, setTimeout, clearTimeout, htid, hid0]
      · simp [edit, effect, cleanup, elapse, setTimeout, clearTimeout, htid, hid0]
      · simp [edit, effect, cleanup, elapse, setTimeout, clearTimeout, htid, hid0, htimers,
          hdue]
      · simp [edit, effect, cleanup, elapse, setTimeout, clearTimeout, htid, hid0, htimers,
          hdue]

/-- C7: start in a state in which at most one validation is pending (none, or the one
scheduled by the previous run of the effect), and let `first :: rest` be edits of which
each one in `rest` arrives less than 500 ms after the one before it. Write `base` for
the validations that have run by the time the first edit arrives. After any non-empty
prefix of the edits exactly one timer is pending and nothing has been added to `base`
(each earlier timer is cleared before it is due). Once at least 500 ms have passed
after the last edit, exactly one more call of `createAndValidateDeploymentData` has
been made, with the text of the last edit, and no timer is left. -/
theorem debounce_single_validation (d0 : Debounce) (first : Nat × Option JsString)
    (rest : List (Nat × Option JsString)) (wait : Nat) (hid : 0 < d0.nextId)
    (hwf : d0.timers = [] ∨ ∃ old, PendingOne d0 old d0.validated)
    (hgap : ∀ e ∈ rest, e.1 < 500) (hwait : 500 ≤ wait) :
    (elapse wait (editAll (first :: rest) d0)).validated =
        (elapse first.1 d0).validated ++
          [((first :: rest).getLast (List.cons_ne_nil first rest)).2] ∧
      (elapse wait (editAll (first :: rest) d0)).timers = [] ∧
      d0.timers.length ≤ 1 ∧
      ∀ k, 0 < k → (editAll ((first :: rest).take k) d0).timers.length = 1 ∧
        (editAll ((first :: rest).take k) d0).validated = (elapse first.1 d0).validated := by
  have hfirst : PendingOne (edit first.1 first.2 d0) first.2 (elapse first.1 d0).validated :=
    edit_first d0 first.1 first.2 hid hwf
  have hall : PendingOne (editAll (first :: rest) d0)
      ((first :: rest).getLast (List.cons_ne_nil first rest)).2 (elapse first.1 d0).validated :=
    editAll_pending rest (edit first.1 first.2 d0) first _ hfirst hgap
  obtain ⟨h1, h2⟩ := elapse_pending _ wait _ _ hall hwait
  refine ⟨h1, h2, ?_, ?_⟩
  · rcases hwf with hquiet | ⟨old, id, _, _, _, htimers, _⟩
    · simp [hquiet]
    · simp [htimers]
  · intro k hk
    obtain ⟨n, rfl⟩ : ∃ n, k = n + 1 := ⟨k - 1, by omega⟩
    have hsub : ∀ e ∈ rest.take n, e.1 < 500 :=
      fun e he => hgap e (List.mem_of_mem_take he)
    have hpre := editAll_pending (rest.take n) (edit first.1 first.2 d0) first _ hfirst hsub
    obtain ⟨id, _, _, _, htimers, hval⟩ := hpre
    have hrun : editAll ((first :: rest).take (n + 1)) d0 =
        editAll (rest.take n) (edit first.1 first.2 d0) := rfl
    rw [hrun, htimers, hval]
    simp

/-- Witness for C7: three edits, 100 ms and 499 ms apart, then 500 ms of quiet; the
single validation runs on the third text. -/
theorem debounce_single_validation_witness :
    (elapse 500 (editAll
        [(0, some (js "a")), (100, some (js "ab")), (499, some (js "abc"))]
        initialDebounce)).validated = [some (js "abc")] :=
  (debounce_single_validation initialDebounce (0, some (js "a"))
    [(100, some (js "ab")), (499, some (js "abc"))] 500 (by decide) (Or.inl rfl)
    (by decide) (by decide)).1
end Akashlytics
